import Mathlib

/-!
Verification development for the `link_sync` storage model and diff engine.

The definitions below are a shallow embedding of `src/link_sync/storage.py`,
`src/link_sync/printers.py` and the `_sync` driver of
`src/link_sync/__main__.py`:

* `PPath` models `pathlib.PurePosixPath` values as an absolute-flag plus a
  list of components; `PPath.render` models `str(path)`, `PPath.join` models
  `Path(a, b)` / `joinpath` (a later absolute segment discards what came
  before), `PPath.relTo` models `Path.relative_to` (`none` models the raised
  `ValueError`), and `parentsList` models `Path.parents` (longest first).
* `parsePath` models constructing a `Path` from a string (split on `/`,
  dropping empty and `.` components, absolute iff the string starts with
  `/`).
* `NodeRec`/`FileNode` model `storage.FileNode`: the keyword data of one
  node plus its (recursively owned) `child_nodes`; Python's `set` of
  children is modelled as a list, with set semantics recovered through
  membership statements.
* `genNodes` models `Storage.gen_nodes` together with the derived
  `full_short_path` / `full_display_path` strings of every visited node
  (the path of a node is determined by its chain of parents, which the
  traversal carries as the `ps`/`pd` accumulators).
* Timestamps: remote `m_timestamp` is an `Option Int` (epoch seconds);
  local `st_mtime` is a rational (Python float seconds).  Naive `datetime`
  values are modelled by their epoch-second value.
-/

structure PPath where
  absolute : Bool
  parts : List String
deriving DecidableEq, Repr

/-- Model of `str(path)` for a `PurePosixPath`. -/
def PPath.render (p : PPath) : String :=
  if p.absolute then "/" ++ String.intercalate "/" p.parts
  else if p.parts.isEmpty then "." else String.intercalate "/" p.parts

/-- Model of `Path(a, b)` / `a.joinpath(b)`: an absolute `b` discards `a`. -/
def PPath.join (p q : PPath) : PPath :=
  if q.absolute then q else ⟨p.absolute, p.parts ++ q.parts⟩

/-- Model of `p.relative_to(q)`; `none` models the raised `ValueError`. -/
def PPath.relTo (p q : PPath) : Option PPath :=
  if p.absolute = q.absolute ∧ q.parts.isPrefixOf p.parts then
    some ⟨false, p.parts.drop q.parts.length⟩
  else none

/-- Model of `p.parents`: proper ancestor paths, longest first. -/
def parentsList (p : PPath) : List PPath :=
  (List.range p.parts.length).map
    fun k => ⟨p.absolute, p.parts.take (p.parts.length - 1 - k)⟩

/-- Model of `Path(s)` for a string `s`: absolute iff `s` starts with `/`;
components are the non-empty, non-`.` chunks between slashes. -/
def parsePath (s : String) : PPath :=
  ⟨s.data.head? = some '/',
    ((s.data.splitOn '/').filter (fun l => decide (l ≠ [] ∧ l ≠ ['.']))).map
      fun l => String.mk l⟩

/-- Model of Python `a.startswith(b)` on strings. -/
def startsWith (s p : String) : Bool :=
  p.data.isPrefixOf s.data

/-- The keyword data of one `FileNode` (`name`, `type`, `ro`,
`m_timestamp`, `display_name`). -/
structure NodeRec where
  name : String
  type : String
  ro : Bool
  m_timestamp : Option Int
  display_name : Option String
deriving DecidableEq, Repr

/-- A `storage.FileNode` together with the `child_nodes` it owns.  The
parent pointer of the source is represented implicitly: every traversal
below carries the parent-chain path accumulators. -/
inductive FileNode where
  | mk (data : NodeRec) (children : List FileNode)

def FileNode.data : FileNode → NodeRec
  | .mk d _ => d

def FileNode.children : FileNode → List FileNode
  | .mk _ c => c

/-- Model of `self.display_name or self.name` (Python `or`: an absent or
empty display name falls back to the short name). -/
def orName (d : Option String) (n : String) : String :=
  match d with
  | some s => if s = "" then n else s
  | none => n

/-- One row of `gen_nodes`: the node's derived `full_short_path` and
`full_display_path` plus the fields the diff engine reads. -/
structure NodeInfo where
  shortPath : String
  dispPath : String
  type : String
  m_timestamp : Option Int
deriving DecidableEq, Repr

/-- `full_short_path` of a node named `n.data.name` whose parent chain
renders to `ps` (root: `ps = ""`). -/
def selfShort (ps : String) (n : FileNode) : String :=
  ps ++ "/" ++ n.data.name

/-- `full_display_path` of a node under parent display path `pd`. -/
def selfDisp (pd : String) (n : FileNode) : String :=
  pd ++ "/" ++ orName n.data.display_name n.data.name

mutual
/-- Model of `Storage.gen_nodes` started at a node whose parent chain has
paths `ps`/`pd`: the node itself followed by the rows of all descendants,
with each row's `full_short_path`/`full_display_path` computed from the
live parent chain. -/
def genNodes (ps pd : String) : FileNode → List NodeInfo
  | .mk r cs =>
      ⟨ps ++ "/" ++ r.name, pd ++ "/" ++ orName r.display_name r.name,
        r.type, r.m_timestamp⟩ ::
        genNodesList (ps ++ "/" ++ r.name)
          (pd ++ "/" ++ orName r.display_name r.name) cs
def genNodesList (ps pd : String) : List FileNode → List NodeInfo
  | [] => []
  | c :: cs => genNodes ps pd c ++ genNodesList ps pd cs
end

/-- All rows of `storage.gen_nodes()` (starting from the root node, whose
parent chain is empty). -/
def nodeInfos (root : FileNode) : List NodeInfo :=
  genNodes "" "" root

/-- Model of `Storage.get_node_for_display_path`: first node (in
`gen_nodes` order) whose `full_display_path` equals the given string. -/
def getNodeForDisplayPath (root : FileNode) (path : String) : Option NodeInfo :=
  (nodeInfos root).find? fun i => i.dispPath = path

/-- Model of `FileNode.is_dir`: `type == "FOLDER"`. -/
def isDir (t : String) : Bool :=
  t = "FOLDER"

/-- Model of `FileNode.m_datetime`, with a naive datetime represented by
its epoch value: `None` when `m_timestamp` is falsy (absent or `0`). -/
def mDatetime (ts : Option Int) : Option Int :=
  match ts with
  | some t => if t = 0 then none else some t
  | none => none

/-- `full_display_path` of the root node (`"/" + (display_name or name)`). -/
def rootDisplayPath (root : FileNode) : String :=
  "/" ++ orName root.data.display_name root.data.name

/-- The loop of `Storage.get_shorter_path`: walk the parent prefixes
(longest first); at the first prefix that some node's `full_display_path`
matches, return that node's `full_short_path` (reparsed as a `Path`)
joined with the requested path's remainder; if no prefix matches, return
the requested path unchanged. -/
def getShorterPathAux (root : FileNode) (rp : PPath) : List PPath → PPath
  | [] => rp
  | par :: rest =>
      match getNodeForDisplayPath root (PPath.render par) with
      | some info =>
          PPath.join (parsePath info.shortPath)
            (match PPath.relTo rp par with
             | some r => r
             | none => ⟨false, []⟩)
      | none => getShorterPathAux root rp rest

/-- Model of `Storage.get_shorter_path`. -/
def getShorterPath (root : FileNode) (rp : PPath) : PPath :=
  getShorterPathAux root rp (parentsList rp)

/-- A local file: its `Path` and its `stat().st_mtime` in epoch seconds
(a Python float, modelled as a rational). -/
structure LocalFile where
  path : PPath
  mtime : ℚ
deriving DecidableEq

/-- Model of `printers.MissingOrStaleFile`. -/
structure MOSFile where
  local_path : PPath
  remote_path : PPath
  is_stale : Bool
deriving DecidableEq, Repr

/-- The remote target path computed by `gen_missing_or_stale_files`:
`Path(root_node.full_display_path, destination_path, relative_file)`.
The source guards this with `if destination_path:`, but a `Path` instance
is always truthy in Python, so that branch is always taken (the `else`
arm is unreachable; it computes the same path when the destination has no
components). -/
def mapGenPath (rootDisp : String) (dest rel : PPath) : PPath :=
  PPath.join (PPath.join (parsePath rootDisp) dest) rel

/-- The remote path built for a local file inside `get_excess_files`:
`Path(destination_path, relative_file)` — no root components prepended. -/
def mapExcessPath (dest rel : PPath) : PPath :=
  PPath.join dest rel

/-- One iteration of the `gen_missing_or_stale_files` loop for one local
file.  `none` models the `ValueError` that `relative_to` raises when the
local file is not below `relative_to_path`.  A resolved node is stale
only when the local mtime exceeds `m_datetime + 60` seconds strictly; a
resolved node with falsy `m_timestamp` (`m_datetime` is `None`) yields
nothing. -/
def processLocalFile (root : FileNode) (dest rtp : PPath) (lf : LocalFile) :
    Option (List MOSFile) :=
  (PPath.relTo lf.path rtp).map fun rel =>
    let rp := mapGenPath (rootDisplayPath root) dest rel
    match getNodeForDisplayPath root (PPath.render rp) with
    | some info =>
        match mDatetime info.m_timestamp with
        | some t => if (t : ℚ) + 60 < lf.mtime then [⟨lf.path, rp, true⟩] else []
        | none => []
    | none => [⟨lf.path, rp, false⟩]

/-- Model of `Printer.gen_missing_or_stale_files`, fully materialised over
the list of local files (the caller `_sync` drains the generator into a
set). -/
def genMissingOrStaleFiles (root : FileNode) (dest rtp : PPath) :
    List LocalFile → Option (List MOSFile)
  | [] => some []
  | lf :: rest => do
      let xs ← processLocalFile root dest rtp lf
      let ys ← genMissingOrStaleFiles root dest rtp rest
      pure (xs ++ ys)

/-- The candidate excess set of `get_excess_files` once the destination
node `dn` has resolved: the `full_display_path` of every node whose
`full_short_path` starts (as a string) with `dn`'s `full_short_path` and
which is not a folder.  Python's set comprehension is modelled as a list
whose membership is the set's membership. -/
def candidateExcess (root : FileNode) (dn : NodeInfo) : List String :=
  ((nodeInfos root).filter
    (fun i => startsWith i.shortPath dn.shortPath && !isDir i.type)).map
    fun i => i.dispPath

/-- The `remote_nodes` loop of `get_excess_files`: display paths of the
nodes that the local files resolve to (unresolved files contribute
nothing; `none` models a raised `ValueError` from `relative_to`). -/
def collectRemoteDisp (root : FileNode) (dest rtp : PPath) :
    List LocalFile → Option (List String)
  | [] => some []
  | lf :: rest => do
      let rel ← PPath.relTo lf.path rtp
      let rest' ← collectRemoteDisp root dest rtp rest
      match getNodeForDisplayPath root (PPath.render (mapExcessPath dest rel)) with
      | some n => pure (n.dispPath :: rest')
      | none => pure rest'

/-- Model of `Printer.get_excess_files`.  The source's first branch tests
`destination_path.absolute`; `absolute` is a bound method object, which
is always truthy in Python, so `dest_node_path` is always
`str(destination_path)` and the `else` arm joining the root display path
is dead code.  The returned Python set of `Path`s is modelled as the list
of display-path strings that survive the removal (the source wraps each
in `Path(...)` on return). -/
def getExcessFiles (root : FileNode) (dest rtp : PPath) (L : List LocalFile) :
    Option (List String) :=
  let dest_node_path := PPath.render dest
  match getNodeForDisplayPath root dest_node_path with
  | none => some []
  | some dn =>
      (collectRemoteDisp root dest rtp L).map fun resolved =>
        (candidateExcess root dn).filter fun d => decide (d ∉ resolved)

/-- Model of `printers.State`. -/
inductive State where
  | BUSY | FINISHED | STOPPED | IDLE | PAUSED | PRINTING | READY
deriving DecidableEq, Repr

/-- Model of `printers.IDLE_STATES`. -/
def IDLE_STATES : List State :=
  [State.FINISHED, State.IDLE, State.READY]

/-- Model of `str.upper()` for the ASCII state strings the device
reports. -/
def strUpper (s : String) : String :=
  String.mk (s.data.map Char.toUpper)

/-- Model of `State[state]` after `.upper()`: the enum member named by the
upper-cased string, or `none` (the `KeyError` arm). -/
def parseState (s : String) : Option State :=
  let u := strUpper s
  if u = "BUSY" then some State.BUSY
  else if u = "FINISHED" then some State.FINISHED
  else if u = "STOPPED" then some State.STOPPED
  else if u = "IDLE" then some State.IDLE
  else if u = "PAUSED" then some State.PAUSED
  else if u = "PRINTING" then some State.PRINTING
  else if u = "READY" then some State.READY
  else none

/-- Model of `Printer.get_state`.  `success` is `response.success` with a
dict payload; `stateStr` is `payload['printer']['state']` when those keys
hold a string (`none` models the caught lookup failure).  Every failing
branch returns `None`. -/
def get_state (success : Bool) (stateStr : Option String) : Option State :=
  if success then
    match stateStr with
    | some s => parseState s
    | none => none
  else none

/-- The Python test `printer_state not in IDLE_STATES` (a `None` state is
not a member, so the guard treats it as non-idle). -/
def inIdleStates (o : Option State) : Bool :=
  match o with
  | some s => IDLE_STATES.contains s
  | none => false

/-- Remote calls a device worker can issue after the initial status
check. -/
inductive RemoteCall where
  | status
  | delete (shortPath : String)
  | upload (remotePath : String)
  | reload
deriving DecidableEq, Repr

/-- Terminal outcome of `_sync` for one device: skipped (busy guard),
reported (dry run) or executed. -/
inductive SyncOutcome where
  | skipped | reported | executed
deriving DecidableEq, Repr

/-- Result of one `_sync` run: which exit was taken, the remote calls
issued, and the computed plan (`none` when no diff was computed). -/
structure SyncResult where
  outcome : SyncOutcome
  calls : List RemoteCall
  plan : Option (List String × List MOSFile)
deriving DecidableEq

/-- The remote calls of the execute phase of `_sync`: per excess path a
delete of the resolved node's short path (an unresolved path only prints);
per missing file an optional pre-delete when stale, then the upload; then
the tree reload. -/
def executeCalls (root : FileNode) (excess : List String)
    (missing : List MOSFile) : List RemoteCall :=
  (excess.flatMap fun p =>
    match getNodeForDisplayPath root p with
    | some n => [RemoteCall.delete n.shortPath]
    | none => []) ++
  (missing.flatMap fun m =>
    (if m.is_stale then
      match getNodeForDisplayPath root (PPath.render m.remote_path) with
      | some n => [RemoteCall.delete n.shortPath]
      | none => []
     else []) ++ [RemoteCall.upload (PPath.render m.remote_path)]) ++
  [RemoteCall.reload]

/-- Model of `__main__._sync` for one device: the busy guard, then the
diff, then either the dry-run report or the execute phase.  `none` models
an exception escaping the worker (a `ValueError` from `relative_to`). -/
def runSync (root : FileNode) (dest rtp : PPath) (L : List LocalFile)
    (success : Bool) (stateStr : Option String)
    (ignoreState execute : Bool) : Option SyncResult :=
  let st := get_state success stateStr
  if !inIdleStates st && !ignoreState then
    some ⟨SyncOutcome.skipped, [RemoteCall.status], none⟩
  else do
    let excess ← getExcessFiles root dest rtp L
    let missing ← genMissingOrStaleFiles root dest rtp L
    if execute then
      pure ⟨SyncOutcome.executed,
        RemoteCall.status :: executeCalls root excess missing,
        some (excess, missing)⟩
    else
      pure ⟨SyncOutcome.reported, [RemoteCall.status], some (excess, missing)⟩

/-- One listing response of the transport:
`success` is `ApiResponse.success`; `children` is `some l` when the
payload is a dict, holding `payload.get("children", [])`, and `none` when
the payload is not a dict. -/
structure ListingResp where
  success : Bool
  children : Option (List NodeRec)
deriving DecidableEq

/-- Model of `Storage._build_storage` run on the node `r` whose parent
chain renders to short path `ps`: fetch the node's listing by its
`full_short_path`; when the response succeeded with a dict payload,
construct each child and recurse into folders; on any other response the
node silently keeps an empty child set — the function is total and has no
failure channel.  `fuel` bounds the recursion depth (the source would
recurse as deep as the device's listings nest). -/
def buildChildren (api : String → ListingResp) :
    Nat → String → NodeRec → FileNode
  | 0, _, r => .mk r []
  | fuel + 1, ps, r =>
      let sp := ps ++ "/" ++ r.name
      let resp := api sp
      if resp.success then
        match resp.children with
        | some childMaps =>
            .mk r (childMaps.map fun c =>
              if c.type = "FOLDER" then buildChildren api fuel sp c
              else .mk c [])
        | none => .mk r []
      else .mk r []

/-- Model of `Storage.reload`: drop the root's children and rebuild. -/
def reloadStorage (api : String → ListingResp) (fuel : Nat)
    (root : FileNode) : FileNode :=
  buildChildren api fuel "" root.data

/-- A node record of the cached-path model: `name`, `parent_node`
(an index into the store, `none` for a root) and the `cached_property`
slot that `full_short_path` fills on first access. -/
structure CNode where
  name : String
  parent : Option Nat
  cacheShort : Option String
deriving DecidableEq, Repr

/-- A mutable network of `FileNode`s, indexed by position. -/
abbrev Store := List CNode

/-- Replace the node at index `i` (no-op when out of range). -/
def updateAt : Store → Nat → (CNode → CNode) → Store
  | [], _, _ => []
  | n :: rest, 0, f => f n :: rest
  | n :: rest, i + 1, f => n :: updateAt rest i f

/-- Write a node's `full_short_path` cache slot. -/
def setCache (st : Store) (i : Nat) (v : String) : Store :=
  updateAt st i fun n => { n with cacheShort := some v }

/-- Model of reading `full_short_path` under `@cached_property`: return
the cached value if present; otherwise recurse into the parent (filling
its cache too), build `parent + "/" + name` (or `"/" + name` for a root),
store it in the cache and return it.  `fuel` bounds the parent chain. -/
def readShort : Nat → Store → Nat → Option String × Store
  | 0, st, _ => (none, st)
  | fuel + 1, st, i =>
      match st.get? i with
      | none => (none, st)
      | some n =>
          match n.cacheShort with
          | some v => (some v, st)
          | none =>
              match n.parent with
              | some p =>
                  match readShort fuel st p with
                  | (some pv, st') =>
                      let v := pv ++ "/" ++ n.name
                      (some v, setCache st' i v)
                  | (none, st') => (none, st')
              | none =>
                  let v := "/" ++ n.name
                  (some v, setCache st i v)

/-- The path the live parent chain denotes, ignoring every cache: what
`full_short_path` would return were it recomputed on every access. -/
def liveShort : Nat → Store → Nat → Option String
  | 0, _, _ => none
  | fuel + 1, st, i =>
      match st.get? i with
      | none => none
      | some n =>
          match n.parent with
          | some p => (liveShort fuel st p).map fun pv => pv ++ "/" ++ n.name
          | none => some ("/" ++ n.name)

/-- A structural change: re-point a node's `parent_node` (caches are left
untouched — `cached_property` has no invalidation). -/
def setParent (st : Store) (i : Nat) (p : Option Nat) : Store :=
  updateAt st i fun n => { n with parent := p }

/-- `u` is a node of the tree rooted at `t` (whose parent chain renders to
`ps`/`pd`), and `u`'s own parent chain renders to `qs`/`qd`. -/
inductive OccursAt :
    String → String → FileNode → String → String → FileNode → Prop where
  | here (ps pd : String) (t : FileNode) : OccursAt ps pd t ps pd t
  | child {ps pd qs qd : String} {t c u : FileNode} :
      c ∈ t.children →
      OccursAt (selfShort ps t) (selfDisp pd t) c qs qd u →
      OccursAt ps pd t qs qd u

/-- Fixture: `a.gcode`, modified at epoch second 5. -/
def exA : FileNode := .mk ⟨"A~1.GCO", "PRINT_FILE", false, some 5, some "a.gcode"⟩ []

/-- Fixture: `b.gcode`, with the epoch-zero timestamp the device reports
for files without a usable modification time. -/
def exB : FileNode := .mk ⟨"B~1.GCO", "PRINT_FILE", false, some 0, some "b.gcode"⟩ []

/-- Fixture: `f.gcode` inside the `docs` folder. -/
def exF : FileNode := .mk ⟨"F~1.GCO", "PRINT_FILE", false, some 9, some "f.gcode"⟩ []

/-- Fixture: the `docs` folder. -/
def exDocs : FileNode := .mk ⟨"DOCS", "FOLDER", false, none, some "docs"⟩ [exF]

/-- Fixture: `x.gcode` inside the `other` folder. -/
def exX : FileNode := .mk ⟨"X~1.GCO", "PRINT_FILE", false, some 5, some "x.gcode"⟩ []

/-- Fixture: an empty folder whose 8.3 name `PROJ~1` is a string prefix of
its sibling `PROJ~12`. -/
def exProj : FileNode := .mk ⟨"PROJ~1", "FOLDER", false, none, some "proj"⟩ []

/-- Fixture: the sibling folder `PROJ~12` (display name `other`). -/
def exOther : FileNode := .mk ⟨"PROJ~12", "FOLDER", false, none, some "other"⟩ [exX]

/-- Fixture: a storage root named `usb` (roots may lack a display name). -/
def exRoot : FileNode :=
  .mk ⟨"usb", "FOLDER", false, none, none⟩ [exA, exB, exDocs, exProj, exOther]

/-- `String.append` concatenates the underlying character lists. -/
theorem string_data_append (a b : String) : (a ++ b).data = a.data ++ b.data := by
  cases a; cases b; rfl

/-- Boolean `List.isPrefixOf` agrees with the prefix order. -/
theorem isPrefixOf_eq_true {α : Type} [BEq α] [LawfulBEq α] (l₁ l₂ : List α) :
    l₁.isPrefixOf l₂ = true ↔ l₁ <+: l₂ := by
  induction l₁ generalizing l₂ with
  | nil => simp [List.isPrefixOf]
  | cons a t ih =>
      cases l₂ with
      | nil => simp [List.isPrefixOf]
      | cons b t₂ => simp [List.isPrefixOf, List.cons_prefix_cons, ih]

/-- A row of a child's subtree is a row of the parent's traversal. -/
theorem mem_genNodesList_of_mem {info : NodeInfo} :
    ∀ (cs : List FileNode) (c : FileNode) (ps pd : String),
      c ∈ cs → info ∈ genNodes ps pd c → info ∈ genNodesList ps pd cs := by
  intro cs
  induction cs with
  | nil => intro c ps pd hc; exact absurd hc (List.not_mem_nil c)
  | cons d rest ih =>
      intro c ps pd hc hi
      rw [genNodesList]
      rcases List.mem_cons.mp hc with h | h
      · exact List.mem_append_left _ (h ▸ hi)
      · exact List.mem_append_right _ (ih c ps pd h hi)

/-- Rows of the subtree of a node occurring in a tree are rows of the
whole tree's traversal. -/
theorem occursAt_genNodes_mem {ps pd qs qd : String} {t u : FileNode}
    (h : OccursAt ps pd t qs qd u) :
    ∀ info ∈ genNodes qs qd u, info ∈ genNodes ps pd t := by
  induction h with
  | here => exact fun _ hi => hi
  | @child ps' pd' _ _ t' c u' hc _ ih =>
      intro info hi
      cases t' with
      | mk r cs =>
          rw [genNodes]
          exact List.mem_cons_of_mem _
            (mem_genNodesList_of_mem cs c _ _ hc (ih info hi))

mutual
/-- Every row of the traversal started at `u` has the `full_short_path`
of `u` as a string prefix of its own `full_short_path`. -/
theorem genNodes_shortPath_extends (u : FileNode) (qs qd : String)
    (info : NodeInfo) (h : info ∈ genNodes qs qd u) :
    (selfShort qs u).data <+: info.shortPath.data := by
  cases u with
  | mk r cs =>
      rw [genNodes] at h
      rcases List.mem_cons.mp h with h1 | h2
      · rw [h1]
        exact List.prefix_refl _
      · obtain ⟨c, _, hpre⟩ := genNodesList_shortPath_extends cs _ _ info h2
        refine List.IsPrefix.trans ?_ hpre
        show (qs ++ "/" ++ r.name).data <+:
          ((qs ++ "/" ++ r.name) ++ "/" ++ c.data.name).data
        exact ⟨"/".data ++ c.data.name.data,
          by simp [string_data_append, List.append_assoc]⟩

/-- List form of `genNodes_shortPath_extends`: each row of a children
traversal extends the `full_short_path` of one of the children. -/
theorem genNodesList_shortPath_extends (cs : List FileNode) (qs qd : String)
    (info : NodeInfo) (h : info ∈ genNodesList qs qd cs) :
    ∃ c ∈ cs, (selfShort qs c).data <+: info.shortPath.data := by
  cases cs with
  | nil =>
      rw [genNodesList] at h
      exact absurd h (List.not_mem_nil info)
  | cons c rest =>
      rw [genNodesList] at h
      rcases List.mem_append.mp h with h1 | h2
      · exact ⟨c, List.mem_cons_self c rest,
          genNodes_shortPath_extends c _ _ info h1⟩
      · obtain ⟨c', hc', hp⟩ := genNodesList_shortPath_extends rest _ _ info h2
        exact ⟨c', List.mem_cons_of_mem _ hc', hp⟩
end

/-- When no parent prefix matches, the `get_shorter_path` loop falls
through and returns the requested path. -/
theorem getShorterPathAux_all_none (root : FileNode) (rp : PPath) :
    ∀ l : List PPath,
      (∀ par ∈ l, getNodeForDisplayPath root (PPath.render par) = none) →
      getShorterPathAux root rp l = rp := by
  intro l
  induction l with
  | nil => intro _; rfl
  | cons p rest ih =>
      intro h
      rw [getShorterPathAux, h p (List.mem_cons_self p rest)]
      exact ih fun q hq => h q (List.mem_cons_of_mem p hq)

/-- C5: `get_shorter_path` round-trip.  (1) If the requested path is an
existing display path `A` extended by one component `x`, the result is the
first matching node's `full_short_path` (reparsed) joined with `x` — the
deepest existing ancestor wins because `parents` is walked longest-first
and `A` is the longest parent of `A/x`.  (2) If no parent prefix of the
requested path matches any node's display path, the requested path is
returned unchanged. -/
theorem C5_shorter_path_roundtrip :
    (∀ (root : FileNode) (A : PPath) (x : String) (info : NodeInfo),
      getNodeForDisplayPath root (PPath.render A) = some info →
      getShorterPath root ⟨A.absolute, A.parts ++ [x]⟩ =
        PPath.join (parsePath info.shortPath) ⟨false, [x]⟩)
    ∧ (∀ (root : FileNode) (rp : PPath),
      (∀ par ∈ parentsList rp,
        getNodeForDisplayPath root (PPath.render par) = none) →
      getShorterPath root rp = rp) := by
  constructor
  · intro root A x info h
    have hlen : (A.parts ++ [x]).length = A.parts.length + 1 := by simp
    have hpar : parentsList ⟨A.absolute, A.parts ++ [x]⟩ =
        A :: (((List.range A.parts.length).map Nat.succ).map
          fun k => ⟨A.absolute,
            (A.parts ++ [x]).take ((A.parts ++ [x]).length - 1 - k)⟩) := by
      unfold parentsList
      rw [hlen, List.range_succ_eq_map, List.map_cons]
      congr 1
      show (⟨A.absolute, (A.parts ++ [x]).take (A.parts.length + 1 - 1 - 0)⟩ :
        PPath) = A
      have he : A.parts.length + 1 - 1 - 0 = A.parts.length := by omega
      rw [he, List.take_left]
    have hrel : PPath.relTo ⟨A.absolute, A.parts ++ [x]⟩ A = some ⟨false, [x]⟩ := by
      unfold PPath.relTo
      rw [if_pos ⟨rfl, (isPrefixOf_eq_true _ _).mpr ⟨[x], rfl⟩⟩]
      rw [List.drop_left]
    rw [getShorterPath, hpar, getShorterPathAux, h, hrel]
  · intro root rp h
    exact getShorterPathAux_all_none root rp (parentsList rp) h

/-- Witness for C5 on the fixture tree: `/usb/docs` exists with short path
`/usb/DOCS`, so `/usb/docs/new.gcode` shortens to `/usb/DOCS/new.gcode`;
a path under the unknown `/elsewhere` is returned unchanged. -/
theorem C5_shorter_path_roundtrip_witness :
    getShorterPath exRoot ⟨true, ["usb", "docs", "new.gcode"]⟩ =
      PPath.join (parsePath "/usb/DOCS") ⟨false, ["new.gcode"]⟩
    ∧ getShorterPath exRoot ⟨true, ["elsewhere", "new.gcode"]⟩ =
      ⟨true, ["elsewhere", "new.gcode"]⟩ := by
  constructor
  · exact C5_shorter_path_roundtrip.1 exRoot ⟨true, ["usb", "docs"]⟩
      "new.gcode" ⟨"/usb/DOCS", "/usb/docs", "FOLDER", none⟩ (by decide)
  · exact C5_shorter_path_roundtrip.2 exRoot ⟨true, ["elsewhere", "new.gcode"]⟩
      (by decide)

/-- The per-file results of `gen_missing_or_stale_files` embed into the
whole run: whatever one listed local file contributes is contained in the
output for any list containing it. -/
theorem genMissing_mem_of_mem (root : FileNode) (dest rtp : PPath)
    (lf : LocalFile) :
    ∀ (L : List LocalFile) (out : List MOSFile), lf ∈ L →
      genMissingOrStaleFiles root dest rtp L = some out →
      ∃ xs, processLocalFile root dest rtp lf = some xs ∧ ∀ x ∈ xs, x ∈ out := by
  intro L
  induction L with
  | nil => intro out h; exact absurd h (List.not_mem_nil lf)
  | cons a rest ih =>
      intro out hmem hgen
      rw [genMissingOrStaleFiles] at hgen
      cases ha : processLocalFile root dest rtp a with
      | none => rw [ha] at hgen; exact absurd hgen (by simp)
      | some xs =>
          rw [ha] at hgen
          cases hr : genMissingOrStaleFiles root dest rtp rest with
          | none => rw [hr] at hgen; exact absurd hgen (by simp)
          | some ys =>
              rw [hr] at hgen
              simp only [Option.bind_some, Option.bind_eq_bind] at hgen
              have hout : out = xs ++ ys := by
                cases hgen; rfl
              rcases List.mem_cons.mp hmem with h | h
              · exact ⟨xs, h ▸ ha, fun x hx =>
                  hout ▸ List.mem_append_left ys hx⟩
              · obtain ⟨xs', hxs', hsub⟩ := ih ys h hr
                exact ⟨xs', hxs', fun x hx =>
                  hout ▸ List.mem_append_right xs (hsub x hx)⟩

/-- C1: staleness boundary of `gen_missing_or_stale_files`.  For a local
file whose computed remote path resolves to a node with a usable
timestamp `t`: the file is emitted — as stale — exactly when the local
mtime strictly exceeds `t + 60` seconds; at a skew of exactly 60 seconds,
or any local mtime at or below the remote timestamp, nothing is
emitted. -/
theorem C1_staleness_boundary (root : FileNode) (dest rtp : PPath)
    (lf : LocalFile) (rel : PPath) (info : NodeInfo) (t : ℤ)
    (h1 : PPath.relTo lf.path rtp = some rel)
    (h2 : getNodeForDisplayPath root
      (PPath.render (mapGenPath (rootDisplayPath root) dest rel)) = some info)
    (h3 : mDatetime info.m_timestamp = some t) :
    (genMissingOrStaleFiles root dest rtp [lf] =
      some (if (t : ℚ) + 60 < lf.mtime
        then [⟨lf.path, mapGenPath (rootDisplayPath root) dest rel, true⟩]
        else []))
    ∧ (lf.mtime ≤ (t : ℚ) + 60 →
        genMissingOrStaleFiles root dest rtp [lf] = some [])
    ∧ ((t : ℚ) + 60 < lf.mtime → ∀ (L : List LocalFile) (out : List MOSFile),
        lf ∈ L → genMissingOrStaleFiles root dest rtp L = some out →
        MOSFile.mk lf.path (mapGenPath (rootDisplayPath root) dest rel) true
          ∈ out) := by
  have hproc : processLocalFile root dest rtp lf =
      some (if (t : ℚ) + 60 < lf.mtime
        then [⟨lf.path, mapGenPath (rootDisplayPath root) dest rel, true⟩]
        else []) := by
    rw [processLocalFile, h1, Option.map_some']
    simp only [h2, h3]
  refine ⟨?_, ?_, ?_⟩
  · rw [genMissingOrStaleFiles, hproc, genMissingOrStaleFiles]
    simp
  · intro hle
    rw [genMissingOrStaleFiles, hproc, genMissingOrStaleFiles]
    simp [if_neg (not_lt.mpr hle)]
  · intro hlt L out hmem hgen
    obtain ⟨xs, hxs, hsub⟩ := genMissing_mem_of_mem root dest rtp lf L out hmem hgen
    rw [hproc, if_pos hlt] at hxs
    cases hxs
    exact hsub _ (List.mem_cons_self _ _)

/-- Witness for C1 on the fixture tree: `a.gcode` has remote timestamp 5;
a local mtime of 66 (> 65) is emitted as stale, a local mtime of exactly
65 (the 60-second boundary) is not emitted, and a local mtime of 3
(older than the remote file) is not emitted. -/
theorem C1_staleness_boundary_witness :
    genMissingOrStaleFiles exRoot ⟨true, ["usb"]⟩ ⟨true, ["h"]⟩
        [⟨⟨true, ["h", "a.gcode"]⟩, 66⟩] =
      some [⟨⟨true, ["h", "a.gcode"]⟩, ⟨true, ["usb", "a.gcode"]⟩, true⟩]
    ∧ genMissingOrStaleFiles exRoot ⟨true, ["usb"]⟩ ⟨true, ["h"]⟩
        [⟨⟨true, ["h", "a.gcode"]⟩, 65⟩] = some []
    ∧ genMissingOrStaleFiles exRoot ⟨true, ["usb"]⟩ ⟨true, ["h"]⟩
        [⟨⟨true, ["h", "a.gcode"]⟩, 3⟩] = some [] := by
  have e : mapGenPath (rootDisplayPath exRoot) ⟨true, ["usb"]⟩
      ⟨false, ["a.gcode"]⟩ = ⟨true, ["usb", "a.gcode"]⟩ := by decide
  refine ⟨?_, ?_, ?_⟩
  · have h := (C1_staleness_boundary exRoot ⟨true, ["usb"]⟩ ⟨true, ["h"]⟩
      ⟨⟨true, ["h", "a.gcode"]⟩, 66⟩ ⟨false, ["a.gcode"]⟩
      ⟨"/usb/A~1.GCO", "/usb/a.gcode", "PRINT_FILE", some 5⟩ 5
      (by decide) (by decide) (by decide)).1
    rw [if_pos (by norm_num), e] at h
    exact h
  · exact (C1_staleness_boundary exRoot ⟨true, ["usb"]⟩ ⟨true, ["h"]⟩
      ⟨⟨true, ["h", "a.gcode"]⟩, 65⟩ ⟨false, ["a.gcode"]⟩
      ⟨"/usb/A~1.GCO", "/usb/a.gcode", "PRINT_FILE", some 5⟩ 5
      (by decide) (by decide) (by decide)).2.1 (by norm_num)
  · exact (C1_staleness_boundary exRoot ⟨true, ["usb"]⟩ ⟨true, ["h"]⟩
      ⟨⟨true, ["h", "a.gcode"]⟩, 3⟩ ⟨false, ["a.gcode"]⟩
      ⟨"/usb/A~1.GCO", "/usb/a.gcode", "PRINT_FILE", some 5⟩ 5
      (by decide) (by decide) (by decide)).2.1 (by norm_num)

/-- C6: a missing or epoch-zero remote timestamp yields a null
`m_datetime`, and a local file resolving to such a node is never emitted
by `gen_missing_or_stale_files`, whatever its local mtime. -/
theorem C6_null_timestamp_never_stale :
    (mDatetime none = none ∧ mDatetime (some 0) = none)
    ∧ (∀ (root : FileNode) (dest rtp : PPath) (lf : LocalFile) (rel : PPath)
        (info : NodeInfo),
        PPath.relTo lf.path rtp = some rel →
        getNodeForDisplayPath root
          (PPath.render (mapGenPath (rootDisplayPath root) dest rel)) =
          some info →
        mDatetime info.m_timestamp = none →
        genMissingOrStaleFiles root dest rtp [lf] = some []) := by
  refine ⟨⟨rfl, rfl⟩, ?_⟩
  intro root dest rtp lf rel info h1 h2 h3
  have hproc : processLocalFile root dest rtp lf = some [] := by
    rw [processLocalFile, h1, Option.map_some']
    simp only [h2, h3]
  rw [genMissingOrStaleFiles, hproc, genMissingOrStaleFiles]
  simp

/-- A local file of the list that resolves through the `get_excess_files`
mapping contributes its node's display path to the `remote_nodes`
collection. -/
theorem mem_collectRemoteDisp (root : FileNode) (dest rtp : PPath)
    (lf : LocalFile) (rel : PPath) (node : NodeInfo)
    (hrel : PPath.relTo lf.path rtp = some rel)
    (hnode : getNodeForDisplayPath root
      (PPath.render (mapExcessPath dest rel)) = some node) :
    ∀ (L : List LocalFile) (resolved : List String), lf ∈ L →
      collectRemoteDisp root dest rtp L = some resolved →
      node.dispPath ∈ resolved := by
  intro L
  induction L with
  | nil => intro resolved h; exact absurd h (List.not_mem_nil lf)
  | cons a rest ih =>
      intro resolved hmem hcol
      rw [collectRemoteDisp] at hcol
      cases ha : PPath.relTo a.path rtp with
      | none => rw [ha] at hcol; exact absurd hcol (by simp)
      | some rela =>
          rw [ha] at hcol
          cases hr : collectRemoteDisp root dest rtp rest with
          | none => rw [hr] at hcol; exact absurd hcol (by simp)
          | some rest' =>
              rw [hr] at hcol
              simp only [Option.bind_eq_bind, Option.some_bind] at hcol
              rcases List.mem_cons.mp hmem with h | h
              · subst h
                rw [hrel] at ha
                cases ha
                rw [hnode] at hcol
                cases hcol
                exact List.mem_cons_self _ _
              · have hmem' := ih rest' h hr
                cases hn : getNodeForDisplayPath root
                    (PPath.render (mapExcessPath dest rela)) with
                | some n =>
                    rw [hn] at hcol
                    cases hcol
                    exact List.mem_cons_of_mem _ hmem'
                | none =>
                    rw [hn] at hcol
                    cases hcol
                    exact hmem'

/-- C4: the excess set never names the remote counterpart of a local
source file.  If a local file's mapped remote path (destination prefix
joined with the file's path relative to `relative_to_path`, as
`get_excess_files` maps it) resolves to a node, that node's display path
is not in the returned set. -/
theorem C4_excess_never_names_local_target (root : FileNode)
    (dest rtp : PPath) (L : List LocalFile) (out : List String)
    (lf : LocalFile) (rel : PPath) (node : NodeInfo)
    (hE : getExcessFiles root dest rtp L = some out)
    (hmem : lf ∈ L)
    (hrel : PPath.relTo lf.path rtp = some rel)
    (hnode : getNodeForDisplayPath root
      (PPath.render (mapExcessPath dest rel)) = some node) :
    node.dispPath ∉ out := by
  rw [getExcessFiles] at hE
  cases hdest : getNodeForDisplayPath root (PPath.render dest) with
  | none =>
      rw [hdest] at hE
      cases hE
      exact List.not_mem_nil _
  | some dn =>
      rw [hdest] at hE
      cases hcol : collectRemoteDisp root dest rtp L with
      | none => rw [hcol] at hE; exact absurd hE (by simp)
      | some resolved =>
          simp only [hcol, Option.map_some'] at hE
          cases hE
          intro hin
          have := (List.mem_filter.mp hin).2
          simp only [decide_eq_true_eq] at this
          exact this (mem_collectRemoteDisp root dest rtp lf rel node hrel
            hnode L resolved hmem hcol)

/-- Witness for C4 on the fixture tree: with one local file mapping to
`a.gcode`, the excess set is the other three files and does not contain
`/usb/a.gcode`. -/
theorem C4_excess_never_names_local_target_witness :
    getExcessFiles exRoot ⟨true, ["usb"]⟩ ⟨true, ["h"]⟩
        [⟨⟨true, ["h", "a.gcode"]⟩, 66⟩] =
      some ["/usb/b.gcode", "/usb/docs/f.gcode", "/usb/other/x.gcode"]
    ∧ "/usb/a.gcode" ∉
      ["/usb/b.gcode", "/usb/docs/f.gcode", "/usb/other/x.gcode"] := by
  refine ⟨by decide, ?_⟩
  exact C4_excess_never_names_local_target exRoot ⟨true, ["usb"]⟩
    ⟨true, ["h"]⟩ [⟨⟨true, ["h", "a.gcode"]⟩, 66⟩]
    ["/usb/b.gcode", "/usb/docs/f.gcode", "/usb/other/x.gcode"]
    ⟨⟨true, ["h", "a.gcode"]⟩, 66⟩ ⟨false, ["a.gcode"]⟩
    ⟨"/usb/A~1.GCO", "/usb/a.gcode", "PRINT_FILE", some 5⟩
    (by decide) (by decide) (by decide) (by decide)

/-- C7 counterexample: for a relative destination prefix, the remote
target path computed by `gen_missing_or_stale_files` (which prepends the
root node's display path) differs from `get_excess_files`' mapping
(destination prefix joined with the relative file, nothing prepended).
Concretely, with destination `proj` and local file `h/new.gcode` relative
to `h`, the generator looks up `/usb/proj/new.gcode` while the excess
mapping is `proj/new.gcode`. -/
theorem C7_counterexample :
    genMissingOrStaleFiles exRoot ⟨false, ["proj"]⟩ ⟨true, ["h"]⟩
        [⟨⟨true, ["h", "new.gcode"]⟩, 0⟩] =
      some [⟨⟨true, ["h", "new.gcode"]⟩,
        ⟨true, ["usb", "proj", "new.gcode"]⟩, false⟩]
    ∧ mapGenPath (rootDisplayPath exRoot) ⟨false, ["proj"]⟩
        ⟨false, ["new.gcode"]⟩ = ⟨true, ["usb", "proj", "new.gcode"]⟩
    ∧ mapExcessPath ⟨false, ["proj"]⟩ ⟨false, ["new.gcode"]⟩ =
        ⟨false, ["proj", "new.gcode"]⟩
    ∧ (⟨true, ["usb", "proj", "new.gcode"]⟩ : PPath) ≠
        ⟨false, ["proj", "new.gcode"]⟩ := by
  decide

/-- C7 (amended): the generator's target is the root display path joined
with the destination prefix joined with the relative file.  Because the
Python join discards earlier components before an absolute one, this
coincides with the `get_excess_files` mapping exactly when the
destination prefix is absolute; for a relative destination the generator
prepends exactly the root display path. -/
theorem C7_target_mapping (rd : String) (dest rel : PPath) :
    (dest.absolute = true → mapGenPath rd dest rel = mapExcessPath dest rel)
    ∧ (dest.absolute = false →
        mapGenPath rd dest rel =
          PPath.join (parsePath rd) (mapExcessPath dest rel)) := by
  constructor
  · intro h
    rw [mapGenPath, mapExcessPath]
    have : PPath.join (parsePath rd) dest = dest := by
      rw [PPath.join, if_pos h]
    rw [this]
  · intro h
    cases hrel : rel.absolute with
    | true => simp [mapGenPath, mapExcessPath, PPath.join, hrel]
    | false =>
        simp [mapGenPath, mapExcessPath, PPath.join, hrel, h,
          List.append_assoc]

/-- Witness for the amended C7: with an absolute destination the two
mappings agree; with a relative destination the generator's path is the
root display path joined before the excess mapping. -/
theorem C7_target_mapping_witness :
    mapGenPath "/usb" ⟨true, ["usb", "docs"]⟩ ⟨false, ["a.gcode"]⟩ =
      mapExcessPath ⟨true, ["usb", "docs"]⟩ ⟨false, ["a.gcode"]⟩
    ∧ mapGenPath "/usb" ⟨false, ["docs"]⟩ ⟨false, ["a.gcode"]⟩ =
      PPath.join (parsePath "/usb")
        (mapExcessPath ⟨false, ["docs"]⟩ ⟨false, ["a.gcode"]⟩) := by
  exact ⟨(C7_target_mapping "/usb" ⟨true, ["usb", "docs"]⟩
      ⟨false, ["a.gcode"]⟩).1 rfl,
    (C7_target_mapping "/usb" ⟨false, ["docs"]⟩ ⟨false, ["a.gcode"]⟩).2 rfl⟩

/-- Fixture for the cached-path model: two roots `P1` and `P2`, and a
node `A` whose parent is `P1`; no path has been read yet. -/
def c8Store0 : Store := [⟨"P1", none, none⟩, ⟨"P2", none, none⟩, ⟨"A", some 0, none⟩]

/-- The store after `A.full_short_path` has been read once (caches of `A`
and its ancestor chain are now filled). -/
def c8Store1 : Store := (readShort 3 c8Store0 2).2

/-- The store after `A` is then re-parented from `P1` to `P2` (the
structural change; `cached_property` leaves the caches untouched). -/
def c8Store2 : Store := setParent c8Store1 2 (some 1)

/-- C8 counterexample: after reading `A`'s path (`/P1/A`) and re-parenting
`A` to `P2`, reading again still returns the cached `/P1/A`, while the
live parent chain denotes `/P2/A` — the property is cached across the
structural change, not recomputed. -/
theorem C8_counterexample :
    (readShort 3 c8Store0 2).1 = some "/P1/A"
    ∧ (readShort 3 c8Store2 2).1 = some "/P1/A"
    ∧ liveShort 3 c8Store2 2 = some "/P2/A"
    ∧ (readShort 3 c8Store2 2).1 ≠ liveShort 3 c8Store2 2 := by
  decide

/-- C8 (amended): `full_short_path` is a `cached_property`.  A node whose
cache slot is filled returns the cached value unchanged — regardless of
any later change to its parent chain; a read on a store with no filled
caches computes exactly the live parent-chain path.  So path properties
reflect the live chain only up to the first read; they are not
recomputed across a structural change. -/
theorem C8_cached_path_semantics :
    (∀ (fuel : Nat) (st : Store) (i : Nat) (n : CNode) (v : String),
      st.get? i = some n → n.cacheShort = some v →
      readShort (fuel + 1) st i = (some v, st))
    ∧ (∀ (fuel : Nat) (st : Store) (i : Nat),
      (∀ n ∈ st, n.cacheShort = none) →
      (readShort fuel st i).1 = liveShort fuel st i) := by
  constructor
  · intro fuel st i n v hget hcache
    simp only [readShort, hget, hcache]
  · intro fuel st
    induction fuel with
    | zero => intro i _; rfl
    | succ f ih =>
        intro i h
        cases hg : st.get? i with
        | none => simp only [readShort, liveShort, hg]
        | some n =>
            have hc := h n (List.get?_mem hg)
            cases hp : n.parent with
            | none => simp only [readShort, liveShort, hg, hc, hp]
            | some p =>
                have ihp := ih p h
                simp only [readShort, liveShort, hg, hc, hp]
                rw [← ihp]
                rcases hrp : readShort f st p with ⟨fst, snd⟩
                cases fst <;> rfl

/-- Witness for the amended C8: a cached node returns its cache verbatim,
and on the cache-free fixture store the first read equals the live
path. -/
theorem C8_cached_path_semantics_witness :
    readShort 1 [⟨"A", none, some "/CACHED"⟩] 0 =
      (some "/CACHED", [⟨"A", none, some "/CACHED"⟩])
    ∧ (readShort 3 c8Store0 2).1 = liveShort 3 c8Store0 2 := by
  exact ⟨C8_cached_path_semantics.1 0 [⟨"A", none, some "/CACHED"⟩] 0
      ⟨"A", none, some "/CACHED"⟩ "/CACHED" (by decide) (by decide),
    C8_cached_path_semantics.2 3 c8Store0 2 (by decide)⟩

/-- C9: the busy guard of `_sync`.  When the reported state is not idle —
including a failed status call, a missing state string, or an
unrecognised one, all of which make `get_state` return `None`, which is
conservatively non-idle — and `ignore_state` is false, the run ends as
`skipped` after only the status call: no plan is computed and no delete,
upload or reload is issued. -/
theorem C9_busy_guard :
    (∀ (root : FileNode) (dest rtp : PPath) (L : List LocalFile)
        (success : Bool) (stateStr : Option String) (execute : Bool),
      inIdleStates (get_state success stateStr) = false →
      runSync root dest rtp L success stateStr false execute =
        some ⟨SyncOutcome.skipped, [RemoteCall.status], none⟩)
    ∧ (∀ s : String, parseState s = none → get_state true (some s) = none)
    ∧ (∀ success : Bool, get_state success none = none)
    ∧ inIdleStates none = false := by
  refine ⟨?_, ?_, ?_, rfl⟩
  · intro root dest rtp L success stateStr execute h
    simp [runSync, h]
  · intro s h
    simp [get_state, h]
  · intro success
    cases success <;> simp [get_state]

/-- Witness for C9: the unrecognised state string `Attention` (absent
from the `State` enum) trips the guard; the run is skipped after the
status call alone. -/
theorem C9_busy_guard_witness :
    runSync exRoot ⟨true, ["usb"]⟩ ⟨true, ["h"]⟩ [] true (some "Attention")
        false true =
      some ⟨SyncOutcome.skipped, [RemoteCall.status], none⟩
    ∧ get_state true (some "Attention") = none := by
  exact ⟨C9_busy_guard.1 exRoot ⟨true, ["usb"]⟩ ⟨true, ["h"]⟩ [] true
      (some "Attention") true (by decide), by decide⟩

/-- C10: a failed or ill-formed listing response for one folder is
indistinguishable from a successful listing of an empty folder: the
whole built tree (and the reloaded tree) is identical under the two
transports.  `buildChildren` is total — there is no exception or failure
channel to record the difference. -/
theorem C10_listing_failure_silently_empty
    (api : String → ListingResp) (bad : String) (resp : ListingResp)
    (h : resp.success = false ∨ resp.children = none) :
    (∀ (fuel : Nat) (ps : String) (r : NodeRec),
      buildChildren (fun p => if p = bad then resp else api p) fuel ps r =
      buildChildren (fun p => if p = bad then ⟨true, some []⟩ else api p)
        fuel ps r)
    ∧ (∀ (fuel : Nat) (root : FileNode),
      reloadStorage (fun p => if p = bad then resp else api p) fuel root =
      reloadStorage (fun p => if p = bad then ⟨true, some []⟩ else api p)
        fuel root) := by
  have main : ∀ (fuel : Nat) (ps : String) (r : NodeRec),
      buildChildren (fun p => if p = bad then resp else api p) fuel ps r =
      buildChildren (fun p => if p = bad then ⟨true, some []⟩ else api p)
        fuel ps r := by
    intro fuel
    induction fuel with
    | zero => intro ps r; rfl
    | succ f ih =>
        intro ps r
        simp only [buildChildren]
        by_cases hsp : ps ++ "/" ++ r.name = bad
        · rw [if_pos hsp, if_pos hsp]
          rcases h with h1 | h1
          · rw [h1]
            simp
          · rw [h1]
            cases resp.success <;> simp
        · rw [if_neg hsp, if_neg hsp]
          cases (api (ps ++ "/" ++ r.name)).success with
          | false => simp
          | true =>
              simp only [if_true]
              cases (api (ps ++ "/" ++ r.name)).children with
              | none => rfl
              | some l =>
                  simp only []
                  congr 1
                  refine List.map_congr_left fun c _ => ?_
                  by_cases hf : c.type = "FOLDER"
                  · simp [hf, ih]
                  · simp [hf]
  exact ⟨main, fun fuel root => main fuel "" root.data⟩

/-- A demonstration transport: the root `/usb` lists one sub-folder,
everything else is empty. -/
def demoApi : String → ListingResp := fun p =>
  if p = "/usb" then ⟨true, some [⟨"SUB", "FOLDER", false, none, some "sub"⟩]⟩
  else ⟨true, some []⟩

/-- Witness for C10: failing the listing of `/usb/SUB` builds the same
tree as returning it an empty child list. -/
theorem C10_listing_failure_silently_empty_witness :
    buildChildren
        (fun p => if p = "/usb/SUB" then (⟨false, none⟩ : ListingResp)
          else demoApi p) 3 "" ⟨"usb", "FOLDER", false, none, none⟩ =
      buildChildren
        (fun p => if p = "/usb/SUB" then (⟨true, some []⟩ : ListingResp)
          else demoApi p) 3 "" ⟨"usb", "FOLDER", false, none, none⟩ := by
  exact (C10_listing_failure_silently_empty demoApi "/usb/SUB" ⟨false, none⟩
    (Or.inl rfl)).1 3 "" ⟨"usb", "FOLDER", false, none, none⟩

/-- C2: the relative-destination branch of `get_excess_files` is dead.
`destination_path.absolute` is a bound method (always truthy), so a
relative destination prefix is looked up verbatim, never joined with the
root display path; it matches no display path (they all start with `/`)
and the function returns the empty set — contradicting the source's own
comment and the spec.  With the destination spelled absolutely the same
folder resolves and yields its file. -/
theorem C2_relative_destination_dead_branch :
    getExcessFiles exRoot ⟨false, ["docs"]⟩ ⟨true, ["h"]⟩ [] = some []
    ∧ getNodeForDisplayPath exRoot "/usb/docs" =
        some ⟨"/usb/DOCS", "/usb/docs", "FOLDER", none⟩
    ∧ PPath.render ⟨false, ["docs"]⟩ = "docs"
    ∧ getExcessFiles exRoot ⟨true, ["usb", "docs"]⟩ ⟨true, ["h"]⟩ [] =
        some ["/usb/docs/f.gcode"] := by
  decide

/-- C3 counterexample: resolve the destination `/usb/proj` (the empty
folder `PROJ~1`); the candidate excess set nevertheless contains
`/usb/other/x.gcode`, a file under the sibling folder `PROJ~12` whose
short path merely begins with `/usb/PROJ~1` as a string — the destination
subtree itself (rows of `genNodes` under `PROJ~1`) does not contain that
display path. -/
theorem C3_counterexample :
    getExcessFiles exRoot ⟨true, ["usb", "proj"]⟩ ⟨true, ["h"]⟩ [] =
      some ["/usb/other/x.gcode"]
    ∧ (genNodes "/usb" "/usb" exProj).map NodeInfo.dispPath = ["/usb/proj"]
    ∧ "/usb/other/x.gcode" ∉
        (genNodes "/usb" "/usb" exProj).map NodeInfo.dispPath := by
  decide

/-- C3 (amended): the candidate excess set contains exactly the display
paths of the non-folder nodes whose `full_short_path` begins with the
destination node's `full_short_path` as a string.  This includes every
non-folder node of the destination's subtree, but can also include nodes
outside it whose 8.3 short path extends the destination's without a
separator. -/
theorem C3_candidate_excess_by_short_path :
    (∀ (root : FileNode) (destStr : String) (dn : NodeInfo)
        (qs qd : String) (u : FileNode),
      getNodeForDisplayPath root destStr = some dn →
      OccursAt "" "" root qs qd u →
      selfShort qs u = dn.shortPath →
      ∀ info ∈ genNodes qs qd u, isDir info.type = false →
        info.dispPath ∈ candidateExcess root dn)
    ∧ (∀ (root : FileNode) (dn : NodeInfo) (d : String),
        d ∈ candidateExcess root dn ↔
        ∃ info ∈ nodeInfos root,
          startsWith info.shortPath dn.shortPath = true
          ∧ isDir info.type = false ∧ info.dispPath = d) := by
  constructor
  · intro root destStr dn qs qd u _ hocc hshort info hinfo hnf
    have hmem : info ∈ nodeInfos root := occursAt_genNodes_mem hocc info hinfo
    have hpre : startsWith info.shortPath dn.shortPath = true := by
      rw [startsWith, isPrefixOf_eq_true]
      rw [← hshort]
      exact genNodes_shortPath_extends u qs qd info hinfo
    rw [candidateExcess]
    exact List.mem_map_of_mem _
      (List.mem_filter.mpr ⟨hmem, by rw [hpre, hnf]; rfl⟩)
  · intro root dn d
    rw [candidateExcess]
    constructor
    · intro hd
      obtain ⟨info, hinfo, hmap⟩ := List.mem_map.mp hd
      have := List.mem_filter.mp hinfo
      refine ⟨info, this.1, ?_, ?_, hmap⟩
      · exact (Bool.and_eq_true _ _ |>.mp this.2).1
      · have := (Bool.and_eq_true _ _ |>.mp this.2).2
        rwa [Bool.not_eq_true'] at this
    · rintro ⟨info, hinfo, hpre, hnf, rfl⟩
      exact List.mem_map_of_mem _
        (List.mem_filter.mpr ⟨hinfo, by rw [hpre, hnf]; rfl⟩)

/-- Witness for the amended C3 on the fixture tree: `f.gcode`, a
non-folder row of the `docs` subtree, is in the candidate excess set of
destination node `docs`; and the string-prefix characterisation puts
`x.gcode` (under sibling `PROJ~12`) in the candidate set of destination
node `PROJ~1`. -/
theorem C3_candidate_excess_by_short_path_witness :
    "/usb/docs/f.gcode" ∈
      candidateExcess exRoot ⟨"/usb/DOCS", "/usb/docs", "FOLDER", none⟩
    ∧ "/usb/other/x.gcode" ∈
      candidateExcess exRoot ⟨"/usb/PROJ~1", "/usb/proj", "FOLDER", none⟩ := by
  constructor
  · exact C3_candidate_excess_by_short_path.1 exRoot "/usb/docs"
      ⟨"/usb/DOCS", "/usb/docs", "FOLDER", none⟩ "/usb" "/usb" exDocs
      (by decide)
      (OccursAt.child
        (show exDocs ∈ exRoot.children from
          List.mem_cons_of_mem _ (List.mem_cons_of_mem _
            (List.mem_cons_self _ _)))
        (OccursAt.here _ _ _))
      (by decide)
      ⟨"/usb/DOCS/F~1.GCO", "/usb/docs/f.gcode", "PRINT_FILE", some 9⟩
      (by decide) (by decide)
  · exact (C3_candidate_excess_by_short_path.2 exRoot
      ⟨"/usb/PROJ~1", "/usb/proj", "FOLDER", none⟩ "/usb/other/x.gcode").mpr
      ⟨⟨"/usb/PROJ~12/X~1.GCO", "/usb/other/x.gcode", "PRINT_FILE", some 5⟩,
        by decide, by decide, by decide, rfl⟩

/-- Witness for C6 on the fixture tree: `b.gcode` carries the epoch-zero
timestamp, so even a local mtime of one million seconds emits nothing. -/
theorem C6_null_timestamp_never_stale_witness :
    genMissingOrStaleFiles exRoot ⟨true, ["usb"]⟩ ⟨true, ["h"]⟩
        [⟨⟨true, ["h", "b.gcode"]⟩, 1000000⟩] = some []
    ∧ mDatetime (some 0) = none := by
  refine ⟨?_, C6_null_timestamp_never_stale.1.2⟩
  exact C6_null_timestamp_never_stale.2 exRoot ⟨true, ["usb"]⟩ ⟨true, ["h"]⟩
    ⟨⟨true, ["h", "b.gcode"]⟩, 1000000⟩ ⟨false, ["b.gcode"]⟩
    ⟨"/usb/B~1.GCO", "/usb/b.gcode", "PRINT_FILE", some 0⟩
    (by decide) (by decide) (by decide)
